import Mathlib

/-
Verification development for the pelican build orchestrator
(src/pelican/init module).  The Python source is shallowly embedded:
settings dictionaries become functions from keys to optional values,
the regular-expression substitutions of the permalink migration become
recursive functions on character lists, and the control flow of run,
of the watch loop and of the top-level exception handler becomes
trace-producing functions.
-/

namespace Pelican

/-- Values stored in a settings mapping: strings, booleans, the Python
None value, and lists of strings (for MARKUP). -/
inductive Val where
  | str (t : String)
  | bool (b : Bool)
  | vnone
  | strList (l : List String)
deriving DecidableEq

/-- A settings mapping: a Python dict from string keys to values.
A key that is absent maps to none. -/
abbrev Settings := String → Option Val

/-- Python truthiness of a settings value. -/
def truthyVal : Val → Bool
  | Val.str t => !(t == "")
  | Val.bool b => b
  | Val.vnone => false
  | Val.strList l => !l.isEmpty

/-- Python truthiness of dict.get with default False: a missing key is
falsy. -/
def truthy : Option Val → Bool
  | none => false
  | some v => truthyVal v

/-- Dictionary update: settings key assignment. -/
def setKey (s : Settings) (k : String) (v : Val) : Settings :=
  fun q => if q = k then some v else s q

/-- Python 2 word character class for the regex escape w with default
flags: letters, digits and underscore. -/
def isWordChar (c : Char) : Bool :=
  (('a' ≤ c) && (c ≤ 'z')) || (('A' ≤ c) && (c ≤ 'Z')) ||
    (('0' ≤ c) && (c ≤ '9')) || (c == '_')

/-- Left-to-right scan implementing re.sub of the pattern percent,
open paren, one or more word chars, close paren, letter s: each match
is replaced by the captured name wrapped in braces.  The fuel argument
bounds the recursion; one unit is spent per consumed character. -/
def subPercentParenAux : Nat → List Char → List Char
  | 0, s => s
  | _ + 1, [] => []
  | fuel + 1, '%' :: '(' :: rest =>
      let name := rest.takeWhile isWordChar
      let rest2 := rest.drop name.length
      if name.isEmpty then
        '%' :: subPercentParenAux fuel ('(' :: rest)
      else
        match rest2 with
        | ')' :: 's' :: tail =>
            '\x7b' :: (name ++ '\x7d' :: subPercentParenAux fuel tail)
        | _ => '%' :: subPercentParenAux fuel ('(' :: rest)
  | fuel + 1, c :: cs => c :: subPercentParenAux fuel cs

/-- Left-to-right scan implementing re.sub of the pattern percent
followed by one character in the ascii range A to z: each match X is
replaced by the text date colon X inside braces. -/
def subStrftimeAux : Nat → List Char → List Char
  | 0, s => s
  | _ + 1, [] => []
  | fuel + 1, '%' :: c :: cs =>
      if ('A' ≤ c) && (c ≤ 'z') then
        '\x7b' :: 'd' :: 'a' :: 't' :: 'e' :: ':' :: '%' :: c :: '\x7d' ::
          subStrftimeAux fuel cs
      else
        '%' :: subStrftimeAux fuel (c :: cs)
  | fuel + 1, c :: cs => c :: subStrftimeAux fuel cs

/-- Strip a single leading slash, implementing re.sub of the anchored
pattern caret slash with the empty replacement. -/
def stripLeadSlash : List Char → List Char
  | '/' :: cs => cs
  | cs => cs

/-- The three-step rewrite applied to a legacy permalink structure in
handle deprecation: percent-paren tokens to brace tokens, strftime
tokens to date-brace tokens, then strip one leading slash. -/
def transformStructure (t : String) : String :=
  let s1 := subPercentParenAux t.data.length t.data
  let s2 := subStrftimeAux s1.length s1
  String.mk (stripLeadSlash s2)

/-- posixpath.join restricted to two arguments, as used by the
permalink migration. -/
def pathJoin (a b : String) : String :=
  if b.data.head? = some '/' then b
  else if a.data = [] ∨ a.data.getLast? = some '/' then a ++ b
  else a ++ "/" ++ b

/-- Python s.startswith(p): p is a literal prefix of the character
sequence of s. -/
def listStarts : List Char → List Char → Bool
  | [], _ => true
  | _ :: _, [] => false
  | a :: as, b :: bs => (a == b) && listStarts as bs

/-- Python string method startswith on Lean strings. -/
def pyStartswith (s p : String) : Bool := listStarts p.data s.data

/-- First half of handle deprecation: when the deprecated clean urls
flag is truthy, overwrite the four url settings with their fixed
modern values. -/
def clean_urls_step (s : Settings) : Settings :=
  if truthy (s "CLEAN_URLS") then
    setKey (setKey (setKey (setKey s
      "ARTICLE_URL" (Val.str "\x7bslug\x7d/"))
      "ARTICLE_LANG_URL" (Val.str "\x7bslug\x7d-\x7blang\x7d/"))
      "PAGE_URL" (Val.str "pages/\x7bslug\x7d/"))
      "PAGE_LANG_URL" (Val.str "pages/\x7bslug\x7d-\x7blang\x7d/")
  else s

/-- The eight settings keys whose values the permalink migration
prefixes, in the order of the source tuple. -/
def permalinkTargets : List String :=
  ["ARTICLE_URL", "ARTICLE_LANG_URL", "PAGE_URL", "PAGE_LANG_URL",
   "ARTICLE_SAVE_AS", "ARTICLE_LANG_SAVE_AS", "PAGE_SAVE_AS",
   "PAGE_LANG_SAVE_AS"]

/-- One step of the prefixing loop: read the current value of key k,
which must be a string, and replace it by the structure joined with
it.  A non-string or missing value models a Python runtime error. -/
def prefixKey (st : String) (s : Settings) (k : String) : Option Settings :=
  match s k with
  | some (Val.str old) => some (setKey s k (Val.str (pathJoin st old)))
  | _ => none

/-- The for loop of the permalink migration over the eight target
keys. -/
def prefixAll (st : String) : List String → Settings → Option Settings
  | [], s => some s
  | k :: ks, s =>
      match prefixKey st s k with
      | some s2 => prefixAll st ks s2
      | none => none

/-- Second half of handle deprecation: when the deprecated permalink
structure setting is truthy, rewrite it and prefix it onto the eight
target settings.  A truthy non-string value models a Python type
error, returned as none. -/
def permalink_step (s : Settings) : Option Settings :=
  if truthy (s "ARTICLE_PERMALINK_STRUCTURE") then
    match s "ARTICLE_PERMALINK_STRUCTURE" with
    | some (Val.str t) => prefixAll (transformStructure t) permalinkTargets s
    | _ => none
  else some s

/-- The whole of handle deprecation: the clean-urls block runs first,
then the permalink block on the updated settings. -/
def handle_deprecation (s : Settings) : Option Settings :=
  permalink_step (clean_urls_step s)

/-- Identities of the generator classes appearing in the pipeline. -/
inductive GeneratorId where
  | articles
  | pages
  | staticGen
  | pdf
deriving DecidableEq

/-- get generator classes: the fixed three generators, with the pdf
generator appended when the PDF setting is truthy.  A missing key
models the Python key error. -/
def get_generator_classes (s : Settings) : Option (List GeneratorId) :=
  match s "PDF_GENERATOR" with
  | none => none
  | some v =>
      let gens := [GeneratorId.articles, GeneratorId.pages, GeneratorId.staticGen]
      some (if truthyVal v then gens ++ [GeneratorId.pdf] else gens)

/-- Abstract generator: which of the two optional capabilities it
exposes, and whether the corresponding call raises.  This models the
duck-typed pipeline members that run drives. -/
structure Gen where
  hasContext : Bool
  contextRaises : Bool
  hasOutput : Bool
  outputRaises : Bool
deriving DecidableEq

/-- Observable events of one run invocation: a context-phase call on
the generator at a pipeline index, the recursive erase of the output
directory, the construction of the writer, and an output-phase call on
the generator at a pipeline index. -/
inductive Event where
  | ctx (i : Nat)
  | cleanup
  | mkWriter
  | out (i : Nat)
deriving DecidableEq

/-- Whether an event is a context-phase invocation. -/
def isCtxEvent : Event → Bool
  | Event.ctx _ => true
  | _ => false

/-- Whether an event is an output-phase invocation. -/
def isOutEvent : Event → Bool
  | Event.out _ => true
  | _ => false

/-- Pipeline index carried by a context-phase event, if any. -/
def eventIdx : Event → Option Nat
  | Event.ctx i => some i
  | _ => none

/-- Indices of the context-phase events of a trace, in trace order. -/
def ctxIndices (t : List Event) : List Nat := t.filterMap eventIdx

/-- The first for loop of run: call generate context on every
generator exposing it, in pipeline order, stopping at the first raise.
Returns the trace of invocations and whether an exception escaped.
The counter i is the pipeline index of the head generator. -/
def contextPhase : List Gen → Nat → List Event × Bool
  | [], _ => ([], false)
  | g :: gs, i =>
      if g.hasContext then
        if g.contextRaises then ([Event.ctx i], true)
        else
          (Event.ctx i :: (contextPhase gs (i + 1)).1,
            (contextPhase gs (i + 1)).2)
      else contextPhase gs (i + 1)

/-- The second for loop of run: call generate output on every
generator exposing it, in pipeline order, stopping at the first
raise. -/
def outputPhase : List Gen → Nat → List Event × Bool
  | [], _ => ([], false)
  | g :: gs, i =>
      if g.hasOutput then
        if g.outputRaises then ([Event.out i], true)
        else
          (Event.out i :: (outputPhase gs (i + 1)).1,
            (outputPhase gs (i + 1)).2)
      else outputPhase gs (i + 1)

/-- Configuration a run invocation reads: the filesystem
canonicalization function, the stored content path, the stored output
path (already canonicalized at construction), and the delete flag. -/
structure RunConfig where
  realpath : String → String
  path : String
  output_path : String
  delete_outputdir : Bool

/-- The guard of the cleanup decision in run: the delete flag is set
and the canonical content path does not start with the stored
canonical output path. -/
def cleanupRequested (cfg : RunConfig) : Bool :=
  cfg.delete_outputdir &&
    !(pyStartswith (cfg.realpath cfg.path) cfg.output_path)

/-- One run invocation: context phase over all generators, then the
guarded erase of the output directory, then writer construction, then
the output phase.  Returns the event trace and whether an exception
escaped.  An exception in the context phase propagates at once: no
later event occurs. -/
def run (cfg : RunConfig) (gens : List Gen) : List Event × Bool :=
  let c := contextPhase gens 0
  if c.2 then (c.1, true)
  else
    let mid := (if cleanupRequested cfg then [Event.cleanup] else []) ++
      [Event.mkWriter]
    let o := outputPhase gens 0
    (c.1 ++ mid ++ o.1, o.2)

/-- Observable events of the watch loop: the two change polls, a run
invocation, and the fixed sleep. -/
inductive WEvent where
  | pollContent
  | pollTheme
  | runB
  | sleepT
deriving DecidableEq, BEq

/-- One tick of the watch loop body: poll the content tree, then (by
short-circuit of the or) poll the theme tree only when the content
poll reported no change; run when either poll reported a change; then
sleep. -/
def watchTick (contentChanged themeChanged : Bool) : List WEvent :=
  (if contentChanged then [WEvent.pollContent, WEvent.runB]
   else if themeChanged then
     [WEvent.pollContent, WEvent.pollTheme, WEvent.runB]
   else [WEvent.pollContent, WEvent.pollTheme]) ++ [WEvent.sleepT]

/-- The autoreload while loop over a finite schedule of poll results;
each schedule entry says whether the content tree and the theme tree
changed at that tick.  A keyboard interrupt truncates the schedule. -/
def watchLoop : List (Bool × Bool) → List WEvent
  | [] => []
  | (c, t) :: rest => watchTick c t ++ watchLoop rest

/-- Errors raised during orchestrator construction: the two explicit
raise sites, and a lookup failure standing for a Python key or type
error on a settings access. -/
inductive InitError where
  | configError (msg : String)
  | lookupError (k : String)
deriving DecidableEq

/-- The message of the missing content path raise. -/
def pathErrMsg : String :=
  "You need to specify a path containing the content"

/-- The message of the unresolvable theme raise. -/
def themeErrMsg : String := "Impossible to find the theme"

/-- The state a successfully constructed orchestrator holds. -/
structure PelicanState where
  path : String
  settings : Settings
  theme : String
  output_path : String
  markup : Val
  delete_outputdir : Val

/-- Constructor arguments, each optional argument defaulting to a
settings entry. -/
structure InitArgs where
  path : Option String
  theme : Option String
  output_path : Option String
  markup : Option Val
  delete_outputdir : Bool

/-- Dictionary subscript: a missing key raises a key error. -/
def getVal (s : Settings) (k : String) : Except InitError Val :=
  match s k with
  | some v => Except.ok v
  | none => Except.error (InitError.lookupError k)

/-- Require a string value; anything else models a Python type error
at the place the value is next used as a string. -/
def asStr (k : String) : Val → Except InitError String
  | Val.str t => Except.ok t
  | _ => Except.error (InitError.lookupError k)

/-- Python or of an optional string argument with a settings entry:
the argument wins when truthy, otherwise the settings entry is
read. -/
def argOr (a : Option String) (s : Settings) (k : String) :
    Except InitError Val :=
  match a with
  | some p => if truthyVal (Val.str p) then Except.ok (Val.str p)
              else getVal s k
  | none => getVal s k

/-- The effective content path value: the path argument or the PATH
setting. -/
def effPathVal (args : InitArgs) (s : Settings) : Except InitError Val :=
  argOr args.path s "PATH"

/-- Lift the optional result of handle deprecation into the
constructor error monad. -/
def depOrErr (s : Settings) : Except InitError Settings :=
  match handle_deprecation s with
  | some s2 => Except.ok s2
  | none => Except.error (InitError.lookupError "ARTICLE_PERMALINK_STRUCTURE")

/-- The effective markup value: the markup argument when truthy, else
the MARKUP setting. -/
def effMarkupVal (args : InitArgs) (s : Settings) : Except InitError Val :=
  match args.markup with
  | some m => if truthyVal m then Except.ok m else getVal s "MARKUP"
  | none => getVal s "MARKUP"

/-- The effective delete flag value: the boolean argument when set,
else the DELETE OUTPUT DIRECTORY setting. -/
def effDeleteVal (args : InitArgs) (s : Settings) : Except InitError Val :=
  if args.delete_outputdir then Except.ok (Val.bool true)
  else getVal s "DELETE_OUTPUT_DIRECTORY"

/-- Strip exactly one trailing slash from the content path. -/
def stripTrailingSlash (p : String) : String :=
  match p.data.getLast? with
  | some '/' => String.mk p.data.dropLast
  | _ => p

/-- The bundled fallback theme location: the themes subdirectory of
the pelican package directory, joined with os.sep. -/
def fallbackTheme (pelicanDir theme : String) : String :=
  pelicanDir ++ "/themes/" ++ theme

/-- Orchestrator construction.  Parameters: fsX is filesystem
existence, rp is realpath, pelicanDir is the directory of the pelican
package.  Mirrors the source order: resolve and check the content
path, strip its trailing slash, run the deprecation migration, resolve
theme, output path, markup and delete flag, then check that the theme
exists, falling back to the bundled location, and raise when neither
exists. -/
def pelican_init (fsX : String → Bool) (rp : String → String)
    (pelicanDir : String) (s0 : Settings) (args : InitArgs) :
    Except InitError PelicanState :=
  (effPathVal args s0).bind (fun pv =>
    if truthyVal pv = false then
      Except.error (InitError.configError pathErrMsg)
    else (asStr "PATH" pv).bind (fun p0 =>
      let path := stripTrailingSlash p0
      (depOrErr s0).bind (fun s1 =>
        (argOr args.theme s1 "THEME").bind (fun tv =>
          (asStr "THEME" tv).bind (fun theme0 =>
            (argOr args.output_path s1 "OUTPUT_PATH").bind (fun ov =>
              (asStr "OUTPUT_PATH" ov).bind (fun o0 =>
                let output_path := rp o0
                (effMarkupVal args s1).bind (fun mv =>
                  (effDeleteVal args s1).bind (fun dv =>
                    if fsX theme0 then
                      Except.ok ⟨path, s1, theme0, output_path, mv, dv⟩
                    else if fsX (fallbackTheme pelicanDir theme0) then
                      Except.ok ⟨path, s1, fallbackTheme pelicanDir theme0,
                        output_path, mv, dv⟩
                    else
                      Except.error
                        (InitError.configError themeErrMsg))))))))))

/-- Log events emitted by the top-level entry point. -/
inductive LogEvent where
  | critical (msg : String)
deriving DecidableEq

/-- Outcome of the top-level except block. -/
inductive MainOutcome where
  | exited (code : Nat)
  | reraised
deriving DecidableEq

/-- The numeric value of the DEBUG level of the logging module. -/
def loggingDEBUG : Nat := 10

/-- An exception object as the except block sees it: its message and
an optional exitcode attribute. -/
structure PyErr where
  msg : String
  exitcode : Option Nat
deriving DecidableEq

/-- The except block of main: log the message as critical, then under
debug verbosity re-raise, otherwise exit with the exitcode attribute
when present and 1 otherwise. -/
def main_on_exception (verbosity : Option Nat) (e : PyErr) :
    List LogEvent × MainOutcome :=
  ([LogEvent.critical e.msg],
    if verbosity = some loggingDEBUG then MainOutcome.reraised
    else MainOutcome.exited (e.exitcode.getD 1))

/-- A generator exposing both capabilities and raising in neither. -/
def quietGen : Gen := ⟨true, false, true, false⟩

/-- A generator raising during its context call. -/
def ctxRaisingGen : Gen := ⟨true, true, true, false⟩

/-- Concrete settings for the clean-urls witness: the deprecated flag
set, one of the four derived keys already present, and one unrelated
key. -/
def exS5 : Settings := fun k =>
  if k = "CLEAN_URLS" then some (Val.bool true)
  else if k = "ARTICLE_URL" then some (Val.str "old-value")
  else if k = "SITENAME" then some (Val.str "blog")
  else none

/-- Concrete settings for the permalink counterexample: a deprecated
permalink structure plus the eight target keys with distinct sentinel
string values. -/
def exS3c : Settings := fun k =>
  if k = "ARTICLE_PERMALINK_STRUCTURE" then some (Val.str "%Y")
  else if k = "ARTICLE_URL" then some (Val.str "au")
  else if k = "ARTICLE_LANG_URL" then some (Val.str "alu")
  else if k = "PAGE_URL" then some (Val.str "pu")
  else if k = "PAGE_LANG_URL" then some (Val.str "plu")
  else if k = "ARTICLE_SAVE_AS" then some (Val.str "asa")
  else if k = "ARTICLE_LANG_SAVE_AS" then some (Val.str "alsa")
  else if k = "PAGE_SAVE_AS" then some (Val.str "psa")
  else if k = "PAGE_LANG_SAVE_AS" then some (Val.str "plsa")
  else none

/-- Concrete settings for the amended permalink witness: a structure
mixing a name token and a strftime token. -/
def exS3w : Settings := fun k =>
  if k = "ARTICLE_PERMALINK_STRUCTURE" then
    some (Val.str "/%(category)s/%Y")
  else if k = "ARTICLE_URL" then some (Val.str "au")
  else if k = "ARTICLE_LANG_URL" then some (Val.str "alu")
  else if k = "PAGE_URL" then some (Val.str "pu")
  else if k = "PAGE_LANG_URL" then some (Val.str "plu")
  else if k = "ARTICLE_SAVE_AS" then some (Val.str "asa")
  else if k = "ARTICLE_LANG_SAVE_AS" then some (Val.str "alsa")
  else if k = "PAGE_SAVE_AS" then some (Val.str "psa")
  else if k = "PAGE_LANG_SAVE_AS" then some (Val.str "plsa")
  else none

/-- Concrete settings for the combined migration witness: both
deprecated keys present, save-as keys present as strings. -/
def exS10 : Settings := fun k =>
  if k = "CLEAN_URLS" then some (Val.bool true)
  else if k = "ARTICLE_PERMALINK_STRUCTURE" then
    some (Val.str "%(category)s")
  else if k = "ARTICLE_SAVE_AS" then some (Val.str "\x7bslug\x7d.html")
  else if k = "ARTICLE_LANG_SAVE_AS" then
    some (Val.str "\x7bslug\x7d-\x7blang\x7d.html")
  else if k = "PAGE_SAVE_AS" then some (Val.str "pages/\x7bslug\x7d.html")
  else if k = "PAGE_LANG_SAVE_AS" then
    some (Val.str "pages/\x7bslug\x7d-\x7blang\x7d.html")
  else if k = "ARTICLE_URL" then some (Val.str "")
  else if k = "ARTICLE_LANG_URL" then some (Val.str "")
  else if k = "PAGE_URL" then some (Val.str "")
  else if k = "PAGE_LANG_URL" then some (Val.str "")
  else none

/-- Settings with the pdf generator disabled. -/
def exS6off : Settings := fun k =>
  if k = "PDF_GENERATOR" then some (Val.bool false) else none

/-- Settings with the pdf generator enabled. -/
def exS6on : Settings := fun k =>
  if k = "PDF_GENERATOR" then some (Val.bool true) else none

/-- Run configuration for the cleanup-gate witness: delete flag set,
output path outside the content path. -/
def exCfg1 : RunConfig := ⟨fun q => q, "/home/user/site", "/home/user/out", true⟩

/-- Run configuration matching the corrected end-to-end scenario:
content nested under the output path, so the erase is skipped. -/
def exCfg2 : RunConfig := ⟨fun q => q, "/a/b/output/posts", "/a/b/output", true⟩

/-- Run configuration of the literal scenario of the original claim:
content /a/b, output /a/b/output, delete flag set. -/
def exCfg2c : RunConfig := ⟨fun q => q, "/a/b", "/a/b/output", true⟩

/-- Run configuration for the phase-ordering witness. -/
def exCfg4 : RunConfig := ⟨fun q => q, "/content", "/out", false⟩

/-- Pipeline for the phase-ordering witness: the middle generator
raises during its context call. -/
def exGens4 : List Gen := [quietGen, ctxRaisingGen, quietGen]

/-- Filesystem for the construction witness: only the bundled
fallback location of the theme exists. -/
def exFs7 : String → Bool := fun q => q == "/pel/themes/simple"

/-- Settings for the construction witness. -/
def exS7 : Settings := fun k =>
  if k = "PATH" then some (Val.str "/content/")
  else if k = "THEME" then some (Val.str "simple")
  else if k = "OUTPUT_PATH" then some (Val.str "output")
  else if k = "MARKUP" then some (Val.strList ["rst"])
  else if k = "DELETE_OUTPUT_DIRECTORY" then some (Val.bool false)
  else none

/-- Constructor arguments for the construction witness: everything
defaulted to settings. -/
def exA7 : InitArgs := ⟨none, none, none, none, false⟩

/-- Settings for the construction witness of the empty-path case. -/
def exS7e : Settings := fun k =>
  if k = "PATH" then some (Val.str "") else none

/-- Every event emitted by the context phase is a context invocation. -/
theorem contextPhase_shape : ∀ (gens : List Gen) (i : Nat),
    ∀ e ∈ (contextPhase gens i).1, ∃ j, e = Event.ctx j := by
  intro gens
  induction gens with
  | nil =>
      intro i e he
      simp [contextPhase] at he
  | cons g gs ih =>
      intro i e he
      by_cases hc : g.hasContext = true
      · by_cases hr : g.contextRaises = true
        · simp [contextPhase, hc, hr] at he
          exact ⟨i, he⟩
        · simp only [Bool.not_eq_true] at hr
          simp [contextPhase, hc, hr] at he
          rcases he with rfl | he2
          · exact ⟨i, rfl⟩
          · exact ih (i + 1) e he2
      · simp only [Bool.not_eq_true] at hc
        simp [contextPhase, hc] at he
        exact ih (i + 1) e he

/-- Every event emitted by the output phase is an output invocation. -/
theorem outputPhase_shape : ∀ (gens : List Gen) (i : Nat),
    ∀ e ∈ (outputPhase gens i).1, ∃ j, e = Event.out j := by
  intro gens
  induction gens with
  | nil =>
      intro i e he
      simp [outputPhase] at he
  | cons g gs ih =>
      intro i e he
      by_cases hc : g.hasOutput = true
      · by_cases hr : g.outputRaises = true
        · simp [outputPhase, hc, hr] at he
          exact ⟨i, he⟩
        · simp only [Bool.not_eq_true] at hr
          simp [outputPhase, hc, hr] at he
          rcases he with rfl | he2
          · exact ⟨i, rfl⟩
          · exact ih (i + 1) e he2
      · simp only [Bool.not_eq_true] at hc
        simp [outputPhase, hc] at he
        exact ih (i + 1) e he

/-- When no generator with the context capability raises, the context phase reports no escaped exception. -/
theorem contextPhase_noraise : ∀ (gens : List Gen) (i : Nat),
    (∀ g ∈ gens, g.hasContext = true → g.contextRaises = false) →
    (contextPhase gens i).2 = false := by
  intro gens
  induction gens with
  | nil => intro i _; simp [contextPhase]
  | cons g gs ih =>
      intro i h
      by_cases hc : g.hasContext = true
      · have hr : g.contextRaises = false := h g (List.mem_cons_self g gs) hc
        simp [contextPhase, hc, hr]
        exact ih (i + 1) (fun g2 hg2 => h g2 (List.mem_cons_of_mem _ hg2))
      · simp only [Bool.not_eq_true] at hc
        simp [contextPhase, hc]
        exact ih (i + 1) (fun g2 hg2 => h g2 (List.mem_cons_of_mem _ hg2))

/-- When some generator with the context capability raises, the context phase reports an escaped exception. -/
theorem contextPhase_raise : ∀ (gens : List Gen) (i : Nat),
    (∃ g ∈ gens, g.hasContext = true ∧ g.contextRaises = true) →
    (contextPhase gens i).2 = true := by
  intro gens
  induction gens with
  | nil => intro i h; simp at h
  | cons g gs ih =>
      intro i h
      obtain ⟨g2, hg2, hc2, hr2⟩ := h
      rcases List.mem_cons.mp hg2 with rfl | htail
      · simp [contextPhase, hc2, hr2]
      · by_cases hc : g.hasContext = true
        · by_cases hr : g.contextRaises = true
          · simp [contextPhase, hc, hr]
          · simp only [Bool.not_eq_true] at hr
            simp [contextPhase, hc, hr]
            exact ih (i + 1) ⟨g2, htail, hc2, hr2⟩
        · simp only [Bool.not_eq_true] at hc
          simp [contextPhase, hc]
          exact ih (i + 1) ⟨g2, htail, hc2, hr2⟩

/-- Indices recorded by the context phase are at least the starting pipeline index. -/
theorem ctxIndices_lb : ∀ (gens : List Gen) (i : Nat),
    ∀ x ∈ ctxIndices (contextPhase gens i).1, i ≤ x := by
  intro gens
  induction gens with
  | nil => intro i x hx; simp [contextPhase, ctxIndices] at hx
  | cons g gs ih =>
      intro i x hx
      by_cases hc : g.hasContext = true
      · by_cases hr : g.contextRaises = true
        · simp [contextPhase, hc, hr, ctxIndices, eventIdx] at hx
          omega
        · simp only [Bool.not_eq_true] at hr
          simp only [contextPhase, hc, hr, ctxIndices, List.filterMap_cons,
            eventIdx, if_true, Bool.false_eq_true, if_false] at hx
          rcases List.mem_cons.mp hx with rfl | hx2
          · omega
          · have := ih (i + 1) x hx2
            omega
      · simp only [Bool.not_eq_true] at hc
        simp only [contextPhase, hc, Bool.false_eq_true, if_false] at hx
        have := ih (i + 1) x hx
        omega

/-- Indices recorded by the context phase are strictly increasing, reflecting pipeline order. -/
theorem ctxIndices_chain : ∀ (gens : List Gen) (i : Nat),
    List.Chain' (fun a b => a < b) (ctxIndices (contextPhase gens i).1) := by
  intro gens
  induction gens with
  | nil => intro i; simp [contextPhase, ctxIndices]
  | cons g gs ih =>
      intro i
      by_cases hc : g.hasContext = true
      · by_cases hr : g.contextRaises = true
        · simp [contextPhase, hc, hr, ctxIndices, eventIdx]
        · simp only [Bool.not_eq_true] at hr
          simp only [contextPhase, hc, hr, ctxIndices, List.filterMap_cons,
            eventIdx, if_true, Bool.false_eq_true, if_false]
          rw [List.chain'_cons']
          constructor
          · intro b hb
            have hbmem : b ∈ ctxIndices (contextPhase gs (i + 1)).1 :=
              List.mem_of_mem_head? hb
            have := ctxIndices_lb gs (i + 1) b hbmem
            omega
          · exact ih (i + 1)
      · simp only [Bool.not_eq_true] at hc
        simp only [contextPhase, hc, Bool.false_eq_true, if_false]
        exact ih (i + 1)

/-- When no context call raises, every generator with the context capability is invoked at its pipeline index. -/
theorem contextPhase_complete : ∀ (gens : List Gen) (i0 : Nat),
    (∀ g ∈ gens, g.hasContext = true → g.contextRaises = false) →
    ∀ j, (h : j < gens.length) → (gens.get ⟨j, h⟩).hasContext = true →
      Event.ctx (i0 + j) ∈ (contextPhase gens i0).1 := by
  intro gens
  induction gens with
  | nil => intro i0 _ j h; simp at h
  | cons g gs ih =>
      intro i0 hnr j h hctx
      cases j with
      | zero =>
          have hc : g.hasContext = true := hctx
          have hr : g.contextRaises = false :=
            hnr g (List.mem_cons_self g gs) hc
          simp [contextPhase, hc, hr]
      | succ j2 =>
          have hj2 : j2 < gs.length := by simpa using h
          have hctx2 : (gs.get ⟨j2, hj2⟩).hasContext = true := hctx
          have hmem := ih (i0 + 1) (fun g2 hg2 => hnr g2 (List.mem_cons_of_mem _ hg2)) j2 hj2 hctx2
          have harith : i0 + 1 + j2 = i0 + (j2 + 1) := by omega
          rw [harith] at hmem
          by_cases hc : g.hasContext = true
          · have hr : g.contextRaises = false :=
              hnr g (List.mem_cons_self g gs) hc
            simp only [contextPhase, hc, hr, if_true, Bool.false_eq_true, if_false]
            exact List.mem_cons_of_mem _ hmem
          · simp only [Bool.not_eq_true] at hc
            simp only [contextPhase, hc, Bool.false_eq_true, if_false]
            exact hmem

/-- When the context phase raises, run stops with the context trace and the raised flag. -/
theorem run_trace_raise (cfg : RunConfig) (gens : List Gen)
    (h : (contextPhase gens 0).2 = true) :
    (run cfg gens).1 = (contextPhase gens 0).1 ∧ (run cfg gens).2 = true := by
  simp [run, h]

/-- When the context phase does not raise, the run trace is the context trace, then the optional erase, then writer construction, then the output trace. -/
theorem run_trace_ok (cfg : RunConfig) (gens : List Gen)
    (h : (contextPhase gens 0).2 = false) :
    (run cfg gens).1 = (contextPhase gens 0).1 ++
      ((if cleanupRequested cfg then [Event.cleanup] else []) ++
        [Event.mkWriter]) ++ (outputPhase gens 0).1 ∧
    (run cfg gens).2 = (outputPhase gens 0).2 := by
  simp [run, h]

/-- An erase event in a run trace can only come from a satisfied cleanup guard. -/
theorem run_cleanup_imp (cfg : RunConfig) (gens : List Gen) :
    Event.cleanup ∈ (run cfg gens).1 → cleanupRequested cfg = true := by
  intro hmem
  cases hr : (contextPhase gens 0).2 with
  | true =>
      rw [(run_trace_raise cfg gens hr).1] at hmem
      obtain ⟨j, hj⟩ := contextPhase_shape gens 0 Event.cleanup hmem
      simp at hj
  | false =>
      rw [(run_trace_ok cfg gens hr).1] at hmem
      rcases List.mem_append.mp hmem with h1 | h2
      · rcases List.mem_append.mp h1 with ha | hb
        · obtain ⟨j, hj⟩ := contextPhase_shape gens 0 _ ha
          simp at hj
        · rcases List.mem_append.mp hb with hx | hy
          · by_cases hreq : cleanupRequested cfg = true
            · exact hreq
            · simp [hreq] at hx
          · simp at hy
      · obtain ⟨j, hj⟩ := outputPhase_shape gens 0 _ h2
        simp at hj

/-- When the context phase does not raise and the cleanup guard holds, the erase occurs. -/
theorem run_cleanup_mem (cfg : RunConfig) (gens : List Gen)
    (h : (contextPhase gens 0).2 = false)
    (hreq : cleanupRequested cfg = true) :
    Event.cleanup ∈ (run cfg gens).1 := by
  rw [(run_trace_ok cfg gens h).1]
  simp [hreq]

/-- When the context phase does not raise, the writer is constructed. -/
theorem run_mkWriter_mem (cfg : RunConfig) (gens : List Gen)
    (h : (contextPhase gens 0).2 = false) :
    Event.mkWriter ∈ (run cfg gens).1 := by
  rw [(run_trace_ok cfg gens h).1]
  simp

/-- The context invocations of a run trace form a prefix: every context event precedes every other event. -/
theorem run_ctx_take_drop (cfg : RunConfig) (gens : List Gen) :
    ∃ n, (∀ e ∈ (run cfg gens).1.take n, isCtxEvent e = true) ∧
         (∀ e ∈ (run cfg gens).1.drop n, isCtxEvent e = false) := by
  refine ⟨(contextPhase gens 0).1.length, ?_, ?_⟩
  · intro e he
    cases hr : (contextPhase gens 0).2 with
    | true =>
        rw [(run_trace_raise cfg gens hr).1, List.take_length] at he
        obtain ⟨j, hj⟩ := contextPhase_shape gens 0 e he
        subst hj; rfl
    | false =>
        rw [(run_trace_ok cfg gens hr).1, List.append_assoc,
          List.take_left] at he
        obtain ⟨j, hj⟩ := contextPhase_shape gens 0 e he
        subst hj; rfl
  · intro e he
    cases hr : (contextPhase gens 0).2 with
    | true =>
        rw [(run_trace_raise cfg gens hr).1, List.drop_length] at he
        simp at he
    | false =>
        rw [(run_trace_ok cfg gens hr).1, List.append_assoc,
          List.drop_left] at he
        rcases List.mem_append.mp he with h1 | h2
        · rcases List.mem_append.mp h1 with hx | hy
          · cases hc : cleanupRequested cfg
            · simp [hc] at hx
            · simp [hc] at hx
              subst hx; rfl
          · simp at hy
            subst hy; rfl
        · obtain ⟨j, hj⟩ := outputPhase_shape gens 0 _ h2
          subst hj; rfl

/-- A context-phase raise propagates out of run and the trace holds context invocations only. -/
theorem run_raise_all_ctx (cfg : RunConfig) (gens : List Gen)
    (h : ∃ g ∈ gens, g.hasContext = true ∧ g.contextRaises = true) :
    (run cfg gens).2 = true ∧
    ∀ e ∈ (run cfg gens).1, isCtxEvent e = true := by
  have hr := contextPhase_raise gens 0 h
  refine ⟨(run_trace_raise cfg gens hr).2, ?_⟩
  rw [(run_trace_raise cfg gens hr).1]
  intro e he
  obtain ⟨j, hj⟩ := contextPhase_shape gens 0 e he
  subst hj; rfl

/-- The context indices of a full run trace are exactly those of its context phase. -/
theorem run_ctxIndices (cfg : RunConfig) (gens : List Gen) :
    ctxIndices (run cfg gens).1 = ctxIndices (contextPhase gens 0).1 := by
  cases hr : (contextPhase gens 0).2 with
  | true => rw [(run_trace_raise cfg gens hr).1]
  | false =>
      rw [(run_trace_ok cfg gens hr).1]
      unfold ctxIndices
      rw [List.filterMap_append, List.filterMap_append]
      have h1 : List.filterMap eventIdx
          ((if cleanupRequested cfg then [Event.cleanup] else []) ++
            [Event.mkWriter]) = [] := by
        cases hc : cleanupRequested cfg <;> simp [hc, eventIdx]
      have h2 : List.filterMap eventIdx (outputPhase gens 0).1 = [] := by
        rw [List.filterMap_eq_nil_iff]
        intro e he
        obtain ⟨j, hj⟩ := outputPhase_shape gens 0 e he
        subst hj; rfl
      rw [h1, h2]
      simp

/-- Reading a key just written returns the written value. -/
theorem setKey_same (s : Settings) (k : String) (v : Val) :
    setKey s k v k = some v := by
  simp [setKey]

/-- Writing one key leaves every other key unchanged. -/
theorem setKey_other (s : Settings) (k q : String) (v : Val) (h : q ≠ k) :
    setKey s k v q = s q := by
  simp [setKey, h]

/-- The prefixing loop over distinct string-valued keys succeeds, joins the structure onto each listed key, and leaves every other key untouched. -/
theorem prefixAll_spec (st : String) :
    ∀ (ks : List String) (s : Settings), ks.Nodup →
      (∀ k ∈ ks, ∃ u, s k = some (Val.str u)) →
      ∃ s2, prefixAll st ks s = some s2 ∧
        (∀ k ∈ ks, ∀ u, s k = some (Val.str u) →
          s2 k = some (Val.str (pathJoin st u))) ∧
        (∀ k, k ∉ ks → s2 k = s k) := by
  intro ks
  induction ks with
  | nil =>
      intro s _ _
      exact ⟨s, rfl, by simp, fun k _ => rfl⟩
  | cons k0 ks ih =>
      intro s hnd hstr
      obtain ⟨u0, hu0⟩ := hstr k0 (List.mem_cons_self k0 ks)
      have hnotin : k0 ∉ ks := (List.nodup_cons.mp hnd).1
      have hnd2 : ks.Nodup := (List.nodup_cons.mp hnd).2
      have hstep : prefixAll st (k0 :: ks) s =
          prefixAll st ks (setKey s k0 (Val.str (pathJoin st u0))) := by
        simp [prefixAll, prefixKey, hu0]
      have hstr1 : ∀ k ∈ ks, ∃ u,
          setKey s k0 (Val.str (pathJoin st u0)) k = some (Val.str u) := by
        intro k hk
        have hne : k ≠ k0 := fun he => hnotin (he ▸ hk)
        rw [setKey_other _ _ _ _ hne]
        exact hstr k (List.mem_cons_of_mem _ hk)
      obtain ⟨s2, hrun, hin, hout⟩ :=
        ih (setKey s k0 (Val.str (pathJoin st u0))) hnd2 hstr1
      refine ⟨s2, by rw [hstep]; exact hrun, ?_, ?_⟩
      · intro k hk u hu
        rcases List.mem_cons.mp hk with rfl | hk2
        · rw [hu0] at hu
          have huu : u0 = u := by simpa using hu
          subst huu
          rw [hout k hnotin, setKey_same]
        · have hne : k ≠ k0 := fun he => hnotin (he ▸ hk2)
          exact hin k hk2 u (by rw [setKey_other _ _ _ _ hne]; exact hu)
      · intro k hk
        have hne : k ≠ k0 := fun he => hk (he ▸ List.mem_cons_self k0 ks)
        have hk2 : k ∉ ks := fun hm => hk (List.mem_cons_of_mem _ hm)
        rw [hout k hk2, setKey_other _ _ _ _ hne]

/-- Claim C1: for every run invocation with the delete-output flag set
(and a context phase that does not raise, so the decision point is
reached), the output directory is erased if and only if the stored
canonical output path is not a prefix of the canonical content path;
when the check blocks the erase, the erase is silently skipped and the
build continues to writer construction rather than aborting. -/
theorem claim_C1_cleanup_gate (cfg : RunConfig) (gens : List Gen)
    (hdel : cfg.delete_outputdir = true)
    (hnr : ∀ g ∈ gens, g.hasContext = true → g.contextRaises = false) :
    (Event.cleanup ∈ (run cfg gens).1 ↔
      pyStartswith (cfg.realpath cfg.path) cfg.output_path = false) ∧
    (pyStartswith (cfg.realpath cfg.path) cfg.output_path = true →
      Event.cleanup ∉ (run cfg gens).1 ∧
        Event.mkWriter ∈ (run cfg gens).1) := by
  have hok := contextPhase_noraise gens 0 hnr
  constructor
  · constructor
    · intro hmem
      have hreq := run_cleanup_imp cfg gens hmem
      unfold cleanupRequested at hreq
      rw [hdel] at hreq
      simpa using hreq
    · intro hps
      apply run_cleanup_mem cfg gens hok
      unfold cleanupRequested
      rw [hdel, hps]
      rfl
  · intro hps
    constructor
    · intro hmem
      have hreq := run_cleanup_imp cfg gens hmem
      unfold cleanupRequested at hreq
      rw [hdel, hps] at hreq
      simp at hreq
    · exact run_mkWriter_mem cfg gens hok

/-- Witness for claim C1: a concrete configuration with the delete flag
set and an output path that is not a prefix of the content path, on
which the erase event occurs. -/
theorem claim_C1_witness :
    pyStartswith (exCfg1.realpath exCfg1.path) exCfg1.output_path = false ∧
    Event.cleanup ∈ (run exCfg1 [quietGen]).1 :=
  ⟨by decide,
   (claim_C1_cleanup_gate exCfg1 [quietGen] (by decide)
     (by decide)).1.mpr (by decide)⟩

/-- Claim C2 (amended): for every configuration whose canonical content
path is equal to or nested under (starts with) the stored canonical
output path, run does not erase the output directory, for any pipeline
and delete flag.  The end-to-end instance of this situation is
contentPath /a/b/output/posts, outputPath /a/b/output, delete flag
true; the scenario of the original claim, contentPath /a/b with
outputPath /a/b/output, falls outside the guard and the directory is
erased there, see the counterexample. -/
theorem claim_C2_no_erase_when_nested (cfg : RunConfig) (gens : List Gen)
    (h : pyStartswith (cfg.realpath cfg.path) cfg.output_path = true) :
    Event.cleanup ∉ (run cfg gens).1 := by
  intro hmem
  have hreq := run_cleanup_imp cfg gens hmem
  unfold cleanupRequested at hreq
  rw [h] at hreq
  simp at hreq

/-- Witness for amended claim C2: with content /a/b/output/posts nested
under output /a/b/output and the delete flag set, no erase event
occurs. -/
theorem claim_C2_witness :
    pyStartswith (exCfg2.realpath exCfg2.path) exCfg2.output_path = true ∧
    Event.cleanup ∉ (run exCfg2 [quietGen]).1 :=
  ⟨by decide, claim_C2_no_erase_when_nested exCfg2 [quietGen] (by decide)⟩

/-- Counterexample to claim C2 as stated: in the literal scenario of the
claim, contentPath /a/b, outputPath /a/b/output, delete flag true, the
guard passes and run does erase the output directory, so /a/b/output
does not still exist after run. -/
theorem claim_C2_counterexample :
    exCfg2c.path = "/a/b" ∧ exCfg2c.output_path = "/a/b/output" ∧
    exCfg2c.delete_outputdir = true ∧
    Event.cleanup ∈ (run exCfg2c [quietGen]).1 := by
  refine ⟨rfl, rfl, rfl, ?_⟩
  decide

/-- Counterexample to claim C3 as stated: the migration prefixes the
transformed structure onto four url keys, not two.  On a concrete
settings mapping, ARTICLE LANG URL and PAGE LANG URL are rewritten as
well as ARTICLE URL and PAGE URL, so the step touches eight keys, four
of them url keys, not the six keys (two url keys) of the claim. -/
theorem claim_C3_counterexample :
    Option.map (fun s2 => s2 "ARTICLE_URL") (permalink_step exS3c) =
      some (some (Val.str "\x7bdate:%Y\x7d/au")) ∧
    Option.map (fun s2 => s2 "ARTICLE_LANG_URL") (permalink_step exS3c) =
      some (some (Val.str "\x7bdate:%Y\x7d/alu")) ∧
    Option.map (fun s2 => s2 "PAGE_URL") (permalink_step exS3c) =
      some (some (Val.str "\x7bdate:%Y\x7d/pu")) ∧
    Option.map (fun s2 => s2 "PAGE_LANG_URL") (permalink_step exS3c) =
      some (some (Val.str "\x7bdate:%Y\x7d/plu")) ∧
    exS3c "ARTICLE_LANG_URL" = some (Val.str "alu") ∧
    exS3c "PAGE_LANG_URL" = some (Val.str "plu") := by
  decide

/-- Claim C3 (amended): for every settings mapping containing a truthy
legacy permalink-structure string, migration rewrites every
percent-paren name token to a brace token, rewrites every remaining
percent strftime token to a date brace token, strips a single leading
path separator, and prefixes the resulting structure as a path segment
onto exactly the corresponding eight existing settings, four save-as
keys and four url keys, leaving all other keys untouched by this
step. -/
theorem claim_C3_permalink_migration (s : Settings) (t : String)
    (hps : s "ARTICLE_PERMALINK_STRUCTURE" = some (Val.str t))
    (ht : truthyVal (Val.str t) = true)
    (hstr : ∀ k ∈ permalinkTargets, ∃ u, s k = some (Val.str u)) :
    ∃ s2, permalink_step s = some s2 ∧
      (∀ k ∈ permalinkTargets, ∀ u, s k = some (Val.str u) →
        s2 k = some (Val.str (pathJoin (transformStructure t) u))) ∧
      (∀ k, k ∉ permalinkTargets → s2 k = s k) := by
  obtain ⟨s2, hrun, hin, hout⟩ :=
    prefixAll_spec (transformStructure t) permalinkTargets s (by decide) hstr
  refine ⟨s2, ?_, hin, hout⟩
  unfold permalink_step
  rw [hps]
  simp only [truthy, ht, if_true]
  exact hrun

/-- All eight target keys of the witness settings hold string values. -/
theorem exS3w_targets : ∀ k ∈ permalinkTargets,
    ∃ u, exS3w k = some (Val.str u) := by
  intro k hk
  fin_cases hk
  exacts [⟨"au", by decide⟩, ⟨"alu", by decide⟩, ⟨"pu", by decide⟩,
    ⟨"plu", by decide⟩, ⟨"asa", by decide⟩, ⟨"alsa", by decide⟩,
    ⟨"psa", by decide⟩, ⟨"plsa", by decide⟩]

/-- Witness for amended claim C3: a structure mixing a name token and a
strftime token is rewritten as specified and prefixed onto the eight
target keys of a concrete settings mapping. -/
theorem claim_C3_witness :
    transformStructure "/%(category)s/%Y" =
      "\x7bcategory\x7d/\x7bdate:%Y\x7d" ∧
    (∃ s2, permalink_step exS3w = some s2 ∧
      (∀ k ∈ permalinkTargets, ∀ u, exS3w k = some (Val.str u) →
        s2 k = some (Val.str
          (pathJoin (transformStructure "/%(category)s/%Y") u))) ∧
      (∀ k, k ∉ permalinkTargets → s2 k = exS3w k)) :=
  ⟨by decide,
   claim_C3_permalink_migration exS3w "/%(category)s/%Y" (by decide)
     (by decide) exS3w_targets⟩

/-- Claim C4: in every run invocation, all context-phase invocations
complete, in pipeline order, before the cleanup decision, writer
construction, or any output-phase invocation occurs: context events
form a prefix of the trace, their indices are strictly increasing, and
with no context raise every context-capable generator is invoked; and
if any generator raises during the context phase, the error propagates
out of run and the trace holds no cleanup, writer or output event. -/
theorem claim_C4_phase_ordering (cfg : RunConfig) (gens : List Gen) :
    (∃ n, (∀ e ∈ (run cfg gens).1.take n, isCtxEvent e = true) ∧
          (∀ e ∈ (run cfg gens).1.drop n, isCtxEvent e = false)) ∧
    List.Chain' (fun a b => a < b) (ctxIndices (run cfg gens).1) ∧
    ((∀ g ∈ gens, g.hasContext = true → g.contextRaises = false) →
      ∀ j, (h : j < gens.length) → (gens.get ⟨j, h⟩).hasContext = true →
        Event.ctx j ∈ (run cfg gens).1) ∧
    ((∃ g ∈ gens, g.hasContext = true ∧ g.contextRaises = true) →
      (run cfg gens).2 = true ∧
      ∀ e ∈ (run cfg gens).1, isCtxEvent e = true) := by
  refine ⟨run_ctx_take_drop cfg gens, ?_, ?_, run_raise_all_ctx cfg gens⟩
  · rw [run_ctxIndices]
    exact ctxIndices_chain gens 0
  · intro hnr j h hctx
    have hok := contextPhase_noraise gens 0 hnr
    rw [(run_trace_ok cfg gens hok).1]
    have hmem := contextPhase_complete gens 0 hnr j h hctx
    rw [Nat.zero_add] at hmem
    exact List.mem_append.mpr (Or.inl (List.mem_append.mpr (Or.inl hmem)))

/-- Witness for claim C4: a three-member pipeline whose middle generator
raises in the context phase; run reports the escaped exception and the
trace holds context invocations only. -/
theorem claim_C4_witness :
    (∃ g ∈ exGens4, g.hasContext = true ∧ g.contextRaises = true) ∧
    (run exCfg4 exGens4).2 = true ∧
    (∀ e ∈ (run exCfg4 exGens4).1, isCtxEvent e = true) :=
  ⟨by decide, (claim_C4_phase_ordering exCfg4 exGens4).2.2.2 (by decide)⟩

/-- Claim C5: for every settings mapping in which the legacy clean-urls
flag is truthy, migration sets exactly the four url-template keys to
their fixed modern values, overwriting any existing values, and
mutates no unrelated key in this step. -/
theorem claim_C5_clean_urls (s : Settings)
    (h : truthy (s "CLEAN_URLS") = true) :
    clean_urls_step s "ARTICLE_URL" = some (Val.str "\x7bslug\x7d/") ∧
    clean_urls_step s "ARTICLE_LANG_URL" =
      some (Val.str "\x7bslug\x7d-\x7blang\x7d/") ∧
    clean_urls_step s "PAGE_URL" = some (Val.str "pages/\x7bslug\x7d/") ∧
    clean_urls_step s "PAGE_LANG_URL" =
      some (Val.str "pages/\x7bslug\x7d-\x7blang\x7d/") ∧
    ∀ k, k ≠ "ARTICLE_URL" → k ≠ "ARTICLE_LANG_URL" → k ≠ "PAGE_URL" →
      k ≠ "PAGE_LANG_URL" → clean_urls_step s k = s k := by
  refine ⟨by simp [clean_urls_step, setKey, h],
    by simp [clean_urls_step, setKey, h],
    by simp [clean_urls_step, setKey, h],
    by simp [clean_urls_step, setKey, h], ?_⟩
  intro k h1 h2 h3 h4
  simp [clean_urls_step, setKey, h, h1, h2, h3, h4]

/-- Witness for claim C5: concrete settings with the deprecated flag set;
the article url key is overwritten and an unrelated key is
untouched. -/
theorem claim_C5_witness :
    truthy (exS5 "CLEAN_URLS") = true ∧
    clean_urls_step exS5 "ARTICLE_URL" = some (Val.str "\x7bslug\x7d/") ∧
    clean_urls_step exS5 "SITENAME" = exS5 "SITENAME" :=
  ⟨by decide,
   (claim_C5_clean_urls exS5 (by decide)).1,
   (claim_C5_clean_urls exS5 (by decide)).2.2.2.2 "SITENAME"
     (by decide) (by decide) (by decide) (by decide)⟩

/-- Claim C6: for every settings mapping with a PDF setting present, the
generator pipeline is exactly the article, page and static generators
in that fixed order when the setting is falsy (three members), and
exactly those three followed by the pdf generator last when it is
truthy (four members). -/
theorem claim_C6_pipeline (s : Settings) (v : Val)
    (h : s "PDF_GENERATOR" = some v) :
    (truthyVal v = false →
      get_generator_classes s =
        some [GeneratorId.articles, GeneratorId.pages, GeneratorId.staticGen]) ∧
    (truthyVal v = true →
      get_generator_classes s =
        some [GeneratorId.articles, GeneratorId.pages, GeneratorId.staticGen,
          GeneratorId.pdf]) := by
  constructor <;> intro ht <;> simp [get_generator_classes, h, ht]

/-- Witness for claim C6: both pipeline shapes at concrete settings. -/
theorem claim_C6_witness :
    get_generator_classes exS6off =
      some [GeneratorId.articles, GeneratorId.pages, GeneratorId.staticGen] ∧
    get_generator_classes exS6on =
      some [GeneratorId.articles, GeneratorId.pages, GeneratorId.staticGen,
        GeneratorId.pdf] :=
  ⟨(claim_C6_pipeline exS6off (Val.bool false) (by decide)).1 (by decide),
   (claim_C6_pipeline exS6on (Val.bool true) (by decide)).2 (by decide)⟩

/-- Claim C7: orchestrator construction fails with a configuration error,
before any pipeline is built or any build runs, whenever the effective
content path is falsy (empty or unset), or whenever the given theme
path does not exist and the bundled fallback location does not exist
either; when the given theme is missing but the fallback exists,
construction succeeds and the resulting state uses the fallback
theme. -/
theorem claim_C7_construction (fsX : String → Bool) (rp : String → String)
    (pd : String) (s : Settings) (args : InitArgs) :
    (∀ pv, effPathVal args s = Except.ok pv → truthyVal pv = false →
      pelican_init fsX rp pd s args =
        Except.error (InitError.configError pathErrMsg)) ∧
    (∀ p s1 th ov mv dv,
      effPathVal args s = Except.ok (Val.str p) →
      truthyVal (Val.str p) = true →
      depOrErr s = Except.ok s1 →
      argOr args.theme s1 "THEME" = Except.ok (Val.str th) →
      argOr args.output_path s1 "OUTPUT_PATH" = Except.ok (Val.str ov) →
      effMarkupVal args s1 = Except.ok mv →
      effDeleteVal args s1 = Except.ok dv →
      fsX th = false →
      ((fsX (fallbackTheme pd th) = false →
        pelican_init fsX rp pd s args =
          Except.error (InitError.configError themeErrMsg)) ∧
       (fsX (fallbackTheme pd th) = true →
        pelican_init fsX rp pd s args =
          Except.ok ⟨stripTrailingSlash p, s1, fallbackTheme pd th,
            rp ov, mv, dv⟩))) := by
  constructor
  · intro pv hpv hfal
    simp [pelican_init, hpv, hfal, Except.bind]
  · intro p s1 th ov mv dv hpv htru hdep hth hov hmv hdv hfs
    constructor
    · intro hfb
      simp [pelican_init, hpv, htru, hdep, hth, hov, hmv, hdv, hfs, hfb,
        Except.bind, asStr]
    · intro hfb
      simp [pelican_init, hpv, htru, hdep, hth, hov, hmv, hdv, hfs, hfb,
        Except.bind, asStr]

/-- Witness for claim C7: an empty content path fails with the path
configuration error, and a theme found only at the bundled fallback
location yields a constructed state using that fallback. -/
theorem claim_C7_witness :
    pelican_init exFs7 (fun q => q) "/pel" exS7e exA7 =
      Except.error (InitError.configError pathErrMsg) ∧
    exFs7 "simple" = false ∧
    exFs7 (fallbackTheme "/pel" "simple") = true ∧
    pelican_init exFs7 (fun q => q) "/pel" exS7 exA7 =
      Except.ok ⟨"/content", exS7, "/pel/themes/simple", "output",
        Val.strList ["rst"], Val.bool false⟩ := by
  refine ⟨?_, by decide, by decide, ?_⟩
  · exact (claim_C7_construction exFs7 (fun q => q) "/pel" exS7e exA7).1
      (Val.str "") (by rfl) (by decide)
  · have h := (claim_C7_construction exFs7 (fun q => q) "/pel" exS7 exA7).2
      "/content/" exS7 "simple" "output" (Val.strList ["rst"])
      (Val.bool false) (by rfl) (by decide) (by rfl) (by rfl)
      (by rfl) (by rfl) (by rfl) (by decide)
    exact h.2 (by decide)

/-- Claim C8: in the watch loop, a tick where neither the content tree
nor the theme tree changed invokes run zero additional times, and a
tick where either changed invokes run exactly once, synchronously,
before any event of the next tick; over a whole schedule the number of
run invocations equals the number of ticks reporting a change. -/
theorem claim_C8_watch_loop (c t : Bool) (rest : List (Bool × Bool)) :
    (∃ tick, watchLoop ((c, t) :: rest) = tick ++ watchLoop rest ∧
      tick.count WEvent.runB = (if c || t then 1 else 0)) ∧
    (∀ sched : List (Bool × Bool),
      (watchLoop sched).count WEvent.runB =
        (sched.filter (fun p => p.1 || p.2)).length) := by
  constructor
  · refine ⟨watchTick c t, rfl, ?_⟩
    cases c <;> cases t <;> decide
  · intro sched
    induction sched with
    | nil => decide
    | cons p rest2 ih =>
        obtain ⟨c2, t2⟩ := p
        have hstep : watchLoop ((c2, t2) :: rest2) =
            watchTick c2 t2 ++ watchLoop rest2 := rfl
        rw [hstep, List.count_append, ih]
        have hcount : (watchTick c2 t2).count WEvent.runB =
            (if c2 || t2 then 1 else 0) := by
          cases c2 <;> cases t2 <;> decide
        rw [hcount]
        cases hct : (c2 || t2) <;> simp [List.filter_cons, hct]
        omega

/-- Claim C9: the top-level except block logs the error as a critical
message and exits with the exitcode attribute of the error when it
carries one, else with exit code 1; except that under debug verbosity
the error is re-raised uncaught instead of being translated to an exit
code. -/
theorem claim_C9_exit_codes (v : Option Nat) (e : PyErr) :
    (main_on_exception v e).1 = [LogEvent.critical e.msg] ∧
    (v = some loggingDEBUG →
      (main_on_exception v e).2 = MainOutcome.reraised) ∧
    (v ≠ some loggingDEBUG → ∀ c, e.exitcode = some c →
      (main_on_exception v e).2 = MainOutcome.exited c) ∧
    (v ≠ some loggingDEBUG → e.exitcode = none →
      (main_on_exception v e).2 = MainOutcome.exited 1) := by
  refine ⟨rfl, ?_, ?_, ?_⟩
  · intro hv
    simp [main_on_exception, hv]
  · intro hv c hc
    simp [main_on_exception, hv, hc]
  · intro hv hc
    simp [main_on_exception, hv, hc]

/-- Witness for claim C9: the three outcomes at concrete inputs: debug
verbosity re-raises; an exitcode attribute of 3 exits with 3; a
missing attribute exits with 1. -/
theorem claim_C9_witness :
    (main_on_exception (some 10) ⟨"boom", some 3⟩).2 =
      MainOutcome.reraised ∧
    (main_on_exception none ⟨"boom", some 3⟩).2 = MainOutcome.exited 3 ∧
    (main_on_exception (some 20) ⟨"boom", none⟩).2 = MainOutcome.exited 1 :=
  ⟨(claim_C9_exit_codes (some 10) ⟨"boom", some 3⟩).2.1 rfl,
   (claim_C9_exit_codes none ⟨"boom", some 3⟩).2.2.1 (by decide) 3 rfl,
   (claim_C9_exit_codes (some 20) ⟨"boom", none⟩).2.2.2 (by decide) rfl⟩

/-- Claim C10: for every settings mapping in which both the legacy
clean-urls flag is truthy and a truthy legacy permalink-structure
string is present, migration applies the clean-urls derivation first
and then prefixes the transformed structure onto the freshly derived
url keys, so each of the four url-template keys ends up equal to the
transformed structure path-joined with its fixed clean-url
template. -/
theorem claim_C10_combined_migration (s : Settings) (t : String)
    (hcu : truthy (s "CLEAN_URLS") = true)
    (hps : s "ARTICLE_PERMALINK_STRUCTURE" = some (Val.str t))
    (ht : truthyVal (Val.str t) = true)
    (ha : ∃ u, s "ARTICLE_SAVE_AS" = some (Val.str u))
    (hb : ∃ u, s "ARTICLE_LANG_SAVE_AS" = some (Val.str u))
    (hc : ∃ u, s "PAGE_SAVE_AS" = some (Val.str u))
    (hd : ∃ u, s "PAGE_LANG_SAVE_AS" = some (Val.str u)) :
    ∃ s2, handle_deprecation s = some s2 ∧
      s2 "ARTICLE_URL" =
        some (Val.str (pathJoin (transformStructure t) "\x7bslug\x7d/")) ∧
      s2 "ARTICLE_LANG_URL" =
        some (Val.str (pathJoin (transformStructure t)
          "\x7bslug\x7d-\x7blang\x7d/")) ∧
      s2 "PAGE_URL" =
        some (Val.str (pathJoin (transformStructure t)
          "pages/\x7bslug\x7d/")) ∧
      s2 "PAGE_LANG_URL" =
        some (Val.str (pathJoin (transformStructure t)
          "pages/\x7bslug\x7d-\x7blang\x7d/")) := by
  have h1 : clean_urls_step s "ARTICLE_URL" =
      some (Val.str "\x7bslug\x7d/") := by
    simp [clean_urls_step, setKey, hcu]
  have h2 : clean_urls_step s "ARTICLE_LANG_URL" =
      some (Val.str "\x7bslug\x7d-\x7blang\x7d/") := by
    simp [clean_urls_step, setKey, hcu]
  have h3 : clean_urls_step s "PAGE_URL" =
      some (Val.str "pages/\x7bslug\x7d/") := by
    simp [clean_urls_step, setKey, hcu]
  have h4 : clean_urls_step s "PAGE_LANG_URL" =
      some (Val.str "pages/\x7bslug\x7d-\x7blang\x7d/") := by
    simp [clean_urls_step, setKey, hcu]
  have hframe : ∀ k, k ≠ "ARTICLE_URL" → k ≠ "ARTICLE_LANG_URL" →
      k ≠ "PAGE_URL" → k ≠ "PAGE_LANG_URL" →
      clean_urls_step s k = s k := by
    intro k k1 k2 k3 k4
    simp [clean_urls_step, setKey, hcu, k1, k2, k3, k4]
  have hps1 : clean_urls_step s "ARTICLE_PERMALINK_STRUCTURE" =
      some (Val.str t) := by
    rw [hframe _ (by decide) (by decide) (by decide) (by decide)]
    exact hps
  have hstr : ∀ k ∈ permalinkTargets,
      ∃ u, clean_urls_step s k = some (Val.str u) := by
    intro k hk
    fin_cases hk
    · exact ⟨_, h1⟩
    · exact ⟨_, h2⟩
    · exact ⟨_, h3⟩
    · exact ⟨_, h4⟩
    · obtain ⟨u, hu⟩ := ha
      exact ⟨u, by
        rw [hframe _ (by decide) (by decide) (by decide) (by decide)]
        exact hu⟩
    · obtain ⟨u, hu⟩ := hb
      exact ⟨u, by
        rw [hframe _ (by decide) (by decide) (by decide) (by decide)]
        exact hu⟩
    · obtain ⟨u, hu⟩ := hc
      exact ⟨u, by
        rw [hframe _ (by decide) (by decide) (by decide) (by decide)]
        exact hu⟩
    · obtain ⟨u, hu⟩ := hd
      exact ⟨u, by
        rw [hframe _ (by decide) (by decide) (by decide) (by decide)]
        exact hu⟩
  obtain ⟨s2, hrun, hin, hout⟩ :=
    prefixAll_spec (transformStructure t) permalinkTargets
      (clean_urls_step s) (by decide) hstr
  refine ⟨s2, ?_, ?_, ?_, ?_, ?_⟩
  · unfold handle_deprecation permalink_step
    rw [hps1]
    simp only [truthy, ht, if_true]
    exact hrun
  · exact hin "ARTICLE_URL" (by decide) _ h1
  · exact hin "ARTICLE_LANG_URL" (by decide) _ h2
  · exact hin "PAGE_URL" (by decide) _ h3
  · exact hin "PAGE_LANG_URL" (by decide) _ h4

/-- Witness for claim C10: with structure percent category, the article
url key becomes the category token joined with the slug template. -/
theorem claim_C10_witness :
    pathJoin (transformStructure "%(category)s") "\x7bslug\x7d/" =
      "\x7bcategory\x7d/\x7bslug\x7d/" ∧
    (∃ s2, handle_deprecation exS10 = some s2 ∧
      s2 "ARTICLE_URL" = some (Val.str
        (pathJoin (transformStructure "%(category)s") "\x7bslug\x7d/")) ∧
      s2 "ARTICLE_LANG_URL" = some (Val.str
        (pathJoin (transformStructure "%(category)s")
          "\x7bslug\x7d-\x7blang\x7d/")) ∧
      s2 "PAGE_URL" = some (Val.str
        (pathJoin (transformStructure "%(category)s")
          "pages/\x7bslug\x7d/")) ∧
      s2 "PAGE_LANG_URL" = some (Val.str
        (pathJoin (transformStructure "%(category)s")
          "pages/\x7bslug\x7d-\x7blang\x7d/"))) :=
  ⟨by decide,
   claim_C10_combined_migration exS10 "%(category)s" (by decide)
     (by decide) (by decide)
     ⟨"\x7bslug\x7d.html", by decide⟩
     ⟨"\x7bslug\x7d-\x7blang\x7d.html", by decide⟩
     ⟨"pages/\x7bslug\x7d.html", by decide⟩
     ⟨"pages/\x7bslug\x7d-\x7blang\x7d.html", by decide⟩⟩


end Pelican
